import Mathlib

/-!
Shallow embedding of a small RV32 instruction-set simulator (core.rs and
mem.rs of the emulator): a 16 MiB byte-addressed memory behind an
address-space partition, a 32-entry register file, 4096 CSR slots, and a
single-step fetch/decode/execute/retire function.

Machine integers are modelled as Nat with explicit wrap-around
(mod 2 ^ 32).  Fallible operations return Option, where none stands for an
out-of-bounds index panic of the original program.  The distinct outcomes
of one step (normal retirement, early return on an unrecognized
Load/Store/Branch funct3, the EBREAK process exit, and panics) are
separated by an explicit result type.
-/

/-- Memory capacity in bytes (mem.rs: MEMORY_SIZE, 16 MiB). -/
def MEMORY_SIZE : Nat := 16777216

/-- 32-bit wrapping addition (u32 semantics). -/
def add32 (a b : Nat) : Nat := (a + b) % 4294967296

/-- 32-bit wrapping subtraction (u32 semantics). -/
def sub32 (a b : Nat) : Nat := (a + (4294967296 - b % 4294967296)) % 4294967296

/-- 32-bit truncating left shift (u32 semantics). -/
def shl32 (a s : Nat) : Nat := (a <<< s) % 4294967296

/-- Reinterpret a u32 bit pattern as the value of a signed i32. -/
def toSigned (x : Nat) : Int :=
  if x < 2147483648 then (x : Int) else (x : Int) - 4294967296

/-- Truncate a signed integer back to its u32 bit pattern. -/
def toU32 (i : Int) : Nat := (i % 4294967296).toNat

/-- Arithmetic shift right of a u32 bit pattern by s bits (s ≤ 31),
mirroring Rust `((x as i32) >> s) as u32`. -/
def sra32 (x s : Nat) : Nat :=
  if x &&& 0x80000000 ≠ 0 then (x >>> s) ||| (4294967296 - (1 <<< (32 - s)))
  else x >>> s

/-- Sign extension of a byte, mirroring `b as i8 as i32 as u32`. -/
def sext8 (b : Nat) : Nat :=
  if b &&& 0x80 ≠ 0 then b ||| 0xFFFFFF00 else b

/-- core.rs read_imm_i: `(inst as i32 >> 20) as u32`. -/
def read_imm_i (inst : Nat) : Nat :=
  if inst &&& 0x80000000 ≠ 0 then (inst >>> 20) ||| 0xFFFFF000 else inst >>> 20

/-- core.rs read_imm_s. -/
def read_imm_s (inst : Nat) : Nat :=
  (read_imm_i inst &&& 0xFFFFFFE0) ||| ((inst >>> 7) &&& 0b11111)

/-- core.rs read_imm_b. -/
def read_imm_b (inst : Nat) : Nat :=
  let low := (inst >>> 7) &&& 0b11111 &&& 0xFFFFFFFE
  let mid := shl32 inst 4 &&& 0x800
  let high := read_imm_i inst &&& 0xFFFFFFE0 &&& 0xFFFFF7FF
  low ||| mid ||| high

/-- core.rs read_imm_u: `inst & !0xFFF`. -/
def read_imm_u (inst : Nat) : Nat := inst &&& 0xFFFFF000

/-- core.rs read_imm_j. -/
def read_imm_j (inst : Nat) : Nat :=
  (read_imm_i inst &&& 0xFFF007FE) ||| (inst &&& 0x000FF000) |||
    ((inst &&& 0x00100000) >>> 9)

/-- Pointwise update of a function, mirroring an array element write. -/
def updFn (f : Nat → Nat) (i v : Nat) : Nat → Nat :=
  fun j => if j = i then v else f j

/-- mem.rs Mem::lb.  Bit 31 clear: unmapped, reads 0.  Bit 31 set: index
the backing array at the low 31 bits; an index outside the array is the
Rust index panic, modelled as none. -/
def Mem.lb (m : Nat → Nat) (addr : Nat) : Option Nat :=
  if addr &&& 0x80000000 ≠ 0 then
    (if addr &&& 0x7FFFFFFF < MEMORY_SIZE then some (m (addr &&& 0x7FFFFFFF))
     else none)
  else some 0

/-- mem.rs Mem::sb.  Bit 31 clear: unmapped, no effect.  Bit 31 set:
write the byte at the low 31 bits, or panic (none) when out of range. -/
def Mem.sb (m : Nat → Nat) (addr v : Nat) : Option (Nat → Nat) :=
  if addr &&& 0x80000000 ≠ 0 then
    (if addr &&& 0x7FFFFFFF < MEMORY_SIZE then
       some (updFn m (addr &&& 0x7FFFFFFF) v)
     else none)
  else some m

/-- mem.rs Mem::lh: little-endian halfword from two byte loads. -/
def Mem.lh (m : Nat → Nat) (addr : Nat) : Option Nat :=
  match Mem.lb m (add32 addr 1), Mem.lb m addr with
  | some b1, some b0 => some ((b1 <<< 8) ||| b0)
  | _, _ => none

/-- mem.rs Mem::lw: little-endian word from four byte loads. -/
def Mem.lw (m : Nat → Nat) (addr : Nat) : Option Nat :=
  match Mem.lb m (add32 addr 3), Mem.lb m (add32 addr 2),
      Mem.lb m (add32 addr 1), Mem.lb m addr with
  | some b3, some b2, some b1, some b0 =>
    some ((b3 <<< 24) ||| (b2 <<< 16) ||| (b1 <<< 8) ||| b0)
  | _, _, _, _ => none

/-- mem.rs Mem::sh: two byte stores, low byte first. -/
def Mem.sh (m : Nat → Nat) (addr v : Nat) : Option (Nat → Nat) :=
  match Mem.sb m addr (v &&& 0xFF) with
  | none => none
  | some m1 => Mem.sb m1 (add32 addr 1) ((v >>> 8) &&& 0xFF)

/-- mem.rs Mem::sw: four byte stores, low byte first. -/
def Mem.sw (m : Nat → Nat) (addr v : Nat) : Option (Nat → Nat) :=
  match Mem.sb m addr (v &&& 0xFF) with
  | none => none
  | some m1 =>
    match Mem.sb m1 (add32 addr 1) ((v >>> 8) &&& 0xFF) with
    | none => none
    | some m2 =>
      match Mem.sb m2 (add32 addr 2) ((v >>> 16) &&& 0xFF) with
      | none => none
      | some m3 => Mem.sb m3 (add32 addr 3) ((v >>> 24) &&& 0xFF)

/-- core.rs Core: memory, CSR file, register file, pc, cycle counter. -/
structure Core where
  mem : Nat → Nat
  csrs : Nat → Nat
  reg : Nat → Nat
  pc : Nat
  cycle_count : Nat

/-- core.rs Core::new. -/
def Core.new : Core :=
  { mem := fun _ => 0, csrs := fun _ => 0, reg := fun _ => 0,
    pc := 0x80000000, cycle_count := 0 }

/-- core.rs Core::reset: registers and pc only; cycle counter kept. -/
def Core.reset (c : Core) : Core :=
  { c with reg := fun _ => 0, pc := 0x80000000 }

/-- Retirement (end of Core::step): cycle_count += 1; reg[0] = 0. -/
def retire (c : Core) : Core :=
  { c with cycle_count := c.cycle_count + 1, reg := updFn c.reg 0 0 }

/-- Outcome of dispatch (the big match of Core::step before retirement):
ok carries the state right before the retirement lines; stall is an
early `return` (state untouched); halt is the EBREAK process exit;
panic covers `panic!`, `todo!`, `unreachable!` and index panics. -/
inductive DResult where
  | ok : Core → DResult
  | stall : DResult
  | halt : DResult
  | panic : DResult

/-- Load arm of the Core::step dispatch.  Throughout the arms, rs1 and
rs2 stand for the operand reads c.reg ((inst >>> 15) &&& 31) and
c.reg ((inst >>> 20) &&& 31), rd_raw for (inst >>> 7) &&& 31, funct3
for (inst >>> 12) &&& 7, funct7 for (inst >>> 25) &&& 127; they are
inlined rather than let-bound.  The load address is
rs1 + I-immediate (wrapping). -/
def execLoad (c : Core) (inst : Nat) : DResult :=
  if (inst >>> 12) &&& 0b111 = 0 then
    match Mem.lb c.mem (add32 (c.reg ((inst >>> 15) &&& 0b11111)) (read_imm_i inst)) with
    | none => DResult.panic
    | some b =>
      DResult.ok { c with reg := updFn c.reg ((inst >>> 7) &&& 0b11111) (sext8 b),
                          pc := add32 c.pc 4 }
  else if (inst >>> 12) &&& 0b111 = 1 then
    -- `lh(addr) as i32 as u32` zero-extends the u16
    match Mem.lh c.mem (add32 (c.reg ((inst >>> 15) &&& 0b11111)) (read_imm_i inst)) with
    | none => DResult.panic
    | some v =>
      DResult.ok { c with reg := updFn c.reg ((inst >>> 7) &&& 0b11111) v,
                          pc := add32 c.pc 4 }
  else if (inst >>> 12) &&& 0b111 = 2 then
    match Mem.lw c.mem (add32 (c.reg ((inst >>> 15) &&& 0b11111)) (read_imm_i inst)) with
    | none => DResult.panic
    | some v =>
      DResult.ok { c with reg := updFn c.reg ((inst >>> 7) &&& 0b11111) v,
                          pc := add32 c.pc 4 }
  else if (inst >>> 12) &&& 0b111 = 4 then
    match Mem.lb c.mem (add32 (c.reg ((inst >>> 15) &&& 0b11111)) (read_imm_i inst)) with
    | none => DResult.panic
    | some v =>
      DResult.ok { c with reg := updFn c.reg ((inst >>> 7) &&& 0b11111) v,
                          pc := add32 c.pc 4 }
  else if (inst >>> 12) &&& 0b111 = 5 then
    match Mem.lh c.mem (add32 (c.reg ((inst >>> 15) &&& 0b11111)) (read_imm_i inst)) with
    | none => DResult.panic
    | some v =>
      DResult.ok { c with reg := updFn c.reg ((inst >>> 7) &&& 0b11111) v,
                          pc := add32 c.pc 4 }
  else DResult.stall

/-- Store arm of the Core::step dispatch.  The store address is
rs1 + S-immediate (wrapping); the stored value is rs2 cast to the
access width. -/
def execStore (c : Core) (inst : Nat) : DResult :=
  if (inst >>> 12) &&& 0b111 = 0 then
    match Mem.sb c.mem (add32 (c.reg ((inst >>> 15) &&& 0b11111)) (read_imm_s inst))
        (c.reg ((inst >>> 20) &&& 0b11111) &&& 0xFF) with
    | none => DResult.panic
    | some m2 => DResult.ok { c with mem := m2, pc := add32 c.pc 4 }
  else if (inst >>> 12) &&& 0b111 = 1 then
    match Mem.sh c.mem (add32 (c.reg ((inst >>> 15) &&& 0b11111)) (read_imm_s inst))
        (c.reg ((inst >>> 20) &&& 0b11111) &&& 0xFFFF) with
    | none => DResult.panic
    | some m2 => DResult.ok { c with mem := m2, pc := add32 c.pc 4 }
  else if (inst >>> 12) &&& 0b111 = 2 then
    match Mem.sw c.mem (add32 (c.reg ((inst >>> 15) &&& 0b11111)) (read_imm_s inst))
        (c.reg ((inst >>> 20) &&& 0b11111)) with
    | none => DResult.panic
    | some m2 => DResult.ok { c with mem := m2, pc := add32 c.pc 4 }
  else DResult.stall

/-- Branch arm of the Core::step dispatch: funct3 picks the condition;
taken adds the B-immediate to pc, not taken adds 4. -/
def execBranch (c : Core) (inst : Nat) : DResult :=
  if (inst >>> 12) &&& 0b111 = 0 then
    DResult.ok { c with
      pc := if c.reg ((inst >>> 15) &&& 0b11111) = c.reg ((inst >>> 20) &&& 0b11111)
            then add32 c.pc (read_imm_b inst) else add32 c.pc 4 }
  else if (inst >>> 12) &&& 0b111 = 1 then
    DResult.ok { c with
      pc := if c.reg ((inst >>> 15) &&& 0b11111) ≠ c.reg ((inst >>> 20) &&& 0b11111)
            then add32 c.pc (read_imm_b inst) else add32 c.pc 4 }
  else if (inst >>> 12) &&& 0b111 = 4 then
    DResult.ok { c with
      pc := if toSigned (c.reg ((inst >>> 15) &&& 0b11111)) <
               toSigned (c.reg ((inst >>> 20) &&& 0b11111))
            then add32 c.pc (read_imm_b inst) else add32 c.pc 4 }
  else if (inst >>> 12) &&& 0b111 = 5 then
    DResult.ok { c with
      pc := if toSigned (c.reg ((inst >>> 20) &&& 0b11111)) ≤
               toSigned (c.reg ((inst >>> 15) &&& 0b11111))
            then add32 c.pc (read_imm_b inst) else add32 c.pc 4 }
  else if (inst >>> 12) &&& 0b111 = 6 then
    DResult.ok { c with
      pc := if c.reg ((inst >>> 15) &&& 0b11111) < c.reg ((inst >>> 20) &&& 0b11111)
            then add32 c.pc (read_imm_b inst) else add32 c.pc 4 }
  else if (inst >>> 12) &&& 0b111 = 7 then
    DResult.ok { c with
      pc := if c.reg ((inst >>> 20) &&& 0b11111) ≤ c.reg ((inst >>> 15) &&& 0b11111)
            then add32 c.pc (read_imm_b inst) else add32 c.pc 4 }
  else DResult.stall

/-- Jalr arm of the Core::step dispatch: rd gets pc + 4 (the old pc),
then pc becomes rs1 + I-immediate with its low bit masked off. -/
def execJalr (c : Core) (inst : Nat) : DResult :=
  DResult.ok { c with
    reg := updFn c.reg ((inst >>> 7) &&& 0b11111) (add32 c.pc 4),
    pc := add32 (c.reg ((inst >>> 15) &&& 0b11111)) (read_imm_i inst &&& 0xFFFFFFFE) }

/-- Jal arm of the Core::step dispatch. -/
def execJal (c : Core) (inst : Nat) : DResult :=
  DResult.ok { c with
    reg := updFn c.reg ((inst >>> 7) &&& 0b11111) (add32 c.pc 4),
    pc := add32 c.pc (read_imm_j inst) }

/-- MiscMem (fence) arm: nothing to order with a single hart. -/
def execMiscMem (c : Core) (_inst : Nat) : DResult :=
  DResult.ok { c with pc := add32 c.pc 4 }

/-- The ALU value of the OpImm arm: funct3 selects the operation on
rs1 and the I-immediate; none is the source's unreachable fallback. -/
def opImmVal (rs1 imm funct3 : Nat) : Option Nat :=
  if funct3 = 0 then some (add32 rs1 imm)
  else if funct3 = 2 then some (if toSigned rs1 < toSigned imm then 1 else 0)
  else if funct3 = 3 then some (if rs1 < imm then 1 else 0)
  else if funct3 = 4 then some (rs1 ^^^ imm)
  else if funct3 = 6 then some (rs1 ||| imm)
  else if funct3 = 7 then some (rs1 &&& imm)
  else if funct3 = 1 then some (shl32 rs1 (imm &&& 0b11111))
  else if funct3 = 5 then
    some (if imm &&& 0x400 = 0 then rs1 >>> (imm &&& 0b11111)
          else sra32 rs1 (imm &&& 0b11111))
  else none

/-- OpImm arm of the Core::step dispatch. -/
def execOpImm (c : Core) (inst : Nat) : DResult :=
  match opImmVal (c.reg ((inst >>> 15) &&& 0b11111)) (read_imm_i inst)
      ((inst >>> 12) &&& 0b111) with
  | none => DResult.panic
  | some v =>
    DResult.ok { c with reg := updFn c.reg ((inst >>> 7) &&& 0b11111) v,
                        pc := add32 c.pc 4 }

/-- The ALU value of the Op arm: funct3 selects the operation on rs1
and rs2, with funct7 bit 5 switching add/sub and the right-shift kind;
none is the source's unreachable fallback. -/
def opVal (rs1 rs2 funct3 funct7 : Nat) : Option Nat :=
  if funct3 = 0 then
    some (if funct7 &&& 0x20 = 0 then add32 rs1 rs2 else sub32 rs1 rs2)
  else if funct3 = 2 then some (if toSigned rs1 < toSigned rs2 then 1 else 0)
  else if funct3 = 3 then some (if rs1 < rs2 then 1 else 0)
  else if funct3 = 4 then some (rs1 ^^^ rs2)
  else if funct3 = 6 then some (rs1 ||| rs2)
  else if funct3 = 7 then some (rs1 &&& rs2)
  else if funct3 = 1 then some (shl32 rs1 (rs2 &&& 0b11111))
  else if funct3 = 5 then
    some (if funct7 &&& 0x20 = 0 then rs1 >>> (rs2 &&& 0b11111)
          else sra32 rs1 (rs2 &&& 0b11111))
  else none

/-- Op arm of the Core::step dispatch. -/
def execOp (c : Core) (inst : Nat) : DResult :=
  match opVal (c.reg ((inst >>> 15) &&& 0b11111)) (c.reg ((inst >>> 20) &&& 0b11111))
      ((inst >>> 12) &&& 0b111) ((inst >>> 25) &&& 0b1111111) with
  | none => DResult.panic
  | some v =>
    DResult.ok { c with reg := updFn c.reg ((inst >>> 7) &&& 0b11111) v,
                        pc := add32 c.pc 4 }

/-- System arm of the Core::step dispatch: ECALL (todo), EBREAK
(debug-halt), and the six CSR forms. -/
def execSystem (c : Core) (inst : Nat) : DResult :=
  if (inst >>> 12) &&& 0b111 = 0 then
    (if inst >>> 20 = 0 then DResult.panic       -- ECALL: todo!
     else if inst >>> 20 = 1 then DResult.halt   -- EBREAK: dump and exit(0)
     else DResult.panic)
  else if (inst >>> 12) &&& 0b111 = 1 then
    DResult.ok { c with
      csrs := updFn c.csrs (inst >>> 20) (c.reg ((inst >>> 15) &&& 0b11111)),
      reg := updFn c.reg ((inst >>> 7) &&& 0b11111) (c.csrs (inst >>> 20)),
      pc := add32 c.pc 4 }
  else if (inst >>> 12) &&& 0b111 = 2 then
    DResult.ok { c with
      csrs := updFn c.csrs (inst >>> 20)
        (c.csrs (inst >>> 20) ||| c.reg ((inst >>> 15) &&& 0b11111)),
      reg := updFn c.reg ((inst >>> 7) &&& 0b11111) (c.csrs (inst >>> 20)),
      pc := add32 c.pc 4 }
  else if (inst >>> 12) &&& 0b111 = 3 then
    DResult.ok { c with
      csrs := updFn c.csrs (inst >>> 20)
        (c.csrs (inst >>> 20) &&& (c.reg ((inst >>> 15) &&& 0b11111) ^^^ 0xFFFFFFFF)),
      reg := updFn c.reg ((inst >>> 7) &&& 0b11111) (c.csrs (inst >>> 20)),
      pc := add32 c.pc 4 }
  else if (inst >>> 12) &&& 0b111 = 5 then
    DResult.ok { c with
      csrs := updFn c.csrs (inst >>> 20) ((inst >>> 15) &&& 0b11111),
      reg := updFn c.reg ((inst >>> 7) &&& 0b11111) (c.csrs (inst >>> 20)),
      pc := add32 c.pc 4 }
  else if (inst >>> 12) &&& 0b111 = 6 then
    DResult.ok { c with
      csrs := updFn c.csrs (inst >>> 20)
        (c.csrs (inst >>> 20) ||| ((inst >>> 15) &&& 0b11111)),
      reg := updFn c.reg ((inst >>> 7) &&& 0b11111) (c.csrs (inst >>> 20)),
      pc := add32 c.pc 4 }
  else if (inst >>> 12) &&& 0b111 = 7 then
    DResult.ok { c with
      csrs := updFn c.csrs (inst >>> 20)
        (c.csrs (inst >>> 20) &&& (((inst >>> 15) &&& 0b11111) ^^^ 0xFFFFFFFF)),
      reg := updFn c.reg ((inst >>> 7) &&& 0b11111) (c.csrs (inst >>> 20)),
      pc := add32 c.pc 4 }
  else DResult.panic

/-- Auipc arm of the Core::step dispatch. -/
def execAuipc (c : Core) (inst : Nat) : DResult :=
  DResult.ok { c with
    reg := updFn c.reg ((inst >>> 7) &&& 0b11111) (add32 c.pc (read_imm_u inst)),
    pc := add32 c.pc 4 }

/-- Lui arm of the Core::step dispatch. -/
def execLui (c : Core) (inst : Nat) : DResult :=
  DResult.ok { c with
    reg := updFn c.reg ((inst >>> 7) &&& 0b11111) (read_imm_u inst),
    pc := add32 c.pc 4 }

/-- The new memory value of the arithmetic/logical AMO family, keyed
by funct7 >> 2 on the loaded value temp and operand rs2; none is the
source's panic on an unrecognized subtype. -/
def amoArithVal (temp rs2 sub : Nat) : Option Nat :=
  if sub = 0b00000 then some (add32 temp rs2)
  else if sub = 0b00100 then some (temp ^^^ rs2)
  else if sub = 0b01100 then some (temp &&& rs2)
  else if sub = 0b01000 then some (temp ||| rs2)
  else if sub = 0b10000 then some (toU32 (min (toSigned temp) (toSigned rs2)))
  else if sub = 0b10100 then some (toU32 (max (toSigned temp) (toSigned rs2)))
  else if sub = 0b11000 then some (min temp rs2)
  else if sub = 0b11100 then some (max temp rs2)
  else none

/-- Amo arm of the Core::step dispatch: word-width only (funct3 must be
2, else the assert panics), subtype keyed by funct7 shifted right by 2:
load-reserved, store-conditional (rd gets 0), swap, then the
arithmetic/logical read-modify-write family.  The address is the rs1
register value. -/
def execAmo (c : Core) (inst : Nat) : DResult :=
  if (inst >>> 12) &&& 0b111 = 0b010 then
    if ((inst >>> 25) &&& 0b1111111) >>> 2 = 0b00010 then
      match Mem.lw c.mem (c.reg ((inst >>> 15) &&& 0b11111)) with
      | none => DResult.panic
      | some v =>
        DResult.ok { c with reg := updFn c.reg ((inst >>> 7) &&& 0b11111) v,
                            pc := add32 c.pc 4 }
    else if ((inst >>> 25) &&& 0b1111111) >>> 2 = 0b00011 then
      match Mem.sw c.mem (c.reg ((inst >>> 15) &&& 0b11111))
          (c.reg ((inst >>> 20) &&& 0b11111)) with
      | none => DResult.panic
      | some m2 =>
        DResult.ok { c with mem := m2,
                            reg := updFn c.reg ((inst >>> 7) &&& 0b11111) 0,
                            pc := add32 c.pc 4 }
    else if ((inst >>> 25) &&& 0b1111111) >>> 2 = 0b00001 then
      match Mem.lw c.mem (c.reg ((inst >>> 15) &&& 0b11111)) with
      | none => DResult.panic
      | some temp =>
        match Mem.sw c.mem (c.reg ((inst >>> 15) &&& 0b11111))
            (c.reg ((inst >>> 20) &&& 0b11111)) with
        | none => DResult.panic
        | some m2 =>
          DResult.ok { c with mem := m2,
                              reg := updFn c.reg ((inst >>> 7) &&& 0b11111) temp,
                              pc := add32 c.pc 4 }
    else
      match Mem.lw c.mem (c.reg ((inst >>> 15) &&& 0b11111)) with
      | none => DResult.panic
      | some temp =>
        match amoArithVal temp (c.reg ((inst >>> 20) &&& 0b11111))
            (((inst >>> 25) &&& 0b1111111) >>> 2) with
        | none => DResult.panic
        | some nvv =>
          match Mem.sw c.mem (c.reg ((inst >>> 15) &&& 0b11111)) nvv with
          | none => DResult.panic
          | some m2 =>
            DResult.ok { c with mem := m2,
                                reg := updFn c.reg ((inst >>> 7) &&& 0b11111) temp,
                                pc := add32 c.pc 4 }
  else DResult.panic  -- assert!(funct3 == 0b010)

/-- core.rs Opcode: the recognized opcode classes. -/
inductive Opcode where
  | Load | Store | Branch | Jalr | Jal | MiscMem
  | OpImm | Op | System | Auipc | Lui | Amo

/-- The opcode-class table of Core::step, keyed by instruction bits
[6:2]; none is the fatal decode panic on an unmapped pattern. -/
def decodeOpcode (inst : Nat) : Option Opcode :=
  if (inst &&& 0b1111100) >>> 2 = 0b00000 then some Opcode.Load
  else if (inst &&& 0b1111100) >>> 2 = 0b01000 then some Opcode.Store
  else if (inst &&& 0b1111100) >>> 2 = 0b11000 then some Opcode.Branch
  else if (inst &&& 0b1111100) >>> 2 = 0b11001 then some Opcode.Jalr
  else if (inst &&& 0b1111100) >>> 2 = 0b11011 then some Opcode.Jal
  else if (inst &&& 0b1111100) >>> 2 = 0b00011 then some Opcode.MiscMem
  else if (inst &&& 0b1111100) >>> 2 = 0b00100 then some Opcode.OpImm
  else if (inst &&& 0b1111100) >>> 2 = 0b01100 then some Opcode.Op
  else if (inst &&& 0b1111100) >>> 2 = 0b11100 then some Opcode.System
  else if (inst &&& 0b1111100) >>> 2 = 0b00101 then some Opcode.Auipc
  else if (inst &&& 0b1111100) >>> 2 = 0b01101 then some Opcode.Lui
  else if (inst &&& 0b1111100) >>> 2 = 0b01011 then some Opcode.Amo
  else none

/-- The decode and dispatch of core.rs Core::step on a fetched
instruction word: decode the opcode class, then run the per-class
arm. -/
def Core.exec (c : Core) (inst : Nat) : DResult :=
  match decodeOpcode inst with
  | none => DResult.panic    -- invalid opcode pattern
  | some Opcode.Load => execLoad c inst
  | some Opcode.Store => execStore c inst
  | some Opcode.Branch => execBranch c inst
  | some Opcode.Jalr => execJalr c inst
  | some Opcode.Jal => execJal c inst
  | some Opcode.MiscMem => execMiscMem c inst
  | some Opcode.OpImm => execOpImm c inst
  | some Opcode.Op => execOp c inst
  | some Opcode.System => execSystem c inst
  | some Opcode.Auipc => execAuipc c inst
  | some Opcode.Lui => execLui c inst
  | some Opcode.Amo => execAmo c inst

/-- Externally visible outcome of one Core::step. -/
inductive StepResult where
  | retired : Core → StepResult
  | stalled : Core → StepResult
  | halted : Core → StepResult
  | fatal : StepResult

/-- core.rs Core::step: fetch at pc, dispatch, then retire (cycle_count
increment and the x0 write-discard) unless the step returned early,
exited on EBREAK, or panicked. -/
def Core.step (c : Core) : StepResult :=
  match Mem.lw c.mem c.pc with
  | none => StepResult.fatal
  | some inst =>
    match Core.exec c inst with
    | DResult.ok c1 => StepResult.retired (retire c1)
    | DResult.stall => StepResult.stalled c
    | DResult.halt => StepResult.halted c
    | DResult.panic => StepResult.fatal

/-- The property that a step retired and its post-state satisfies P. -/
def afterRetire (r : StepResult) (P : Core → Prop) : Prop :=
  match r with
  | StepResult.retired c => P c
  | _ => False

/-- Extract the post-state of a retired step, with a default. -/
def coreOf (r : StepResult) (d : Core) : Core :=
  match r with
  | StepResult.retired c => c
  | _ => d

/-- The destination register value of a retired step, if any. -/
def regOfRetired (r : StepResult) (i : Nat) : Option Nat :=
  match r with
  | StepResult.retired c => some (c.reg i)
  | _ => none

/-! ## Shape lemmas about one step -/

set_option maxHeartbeats 1000000

/-- A retiring Load arm leaves the cycle counter alone (the increment
happens at retirement, outside the dispatch arms). -/
lemma execLoad_cycle (c : Core) (inst : Nat) (c1 : Core)
    (h : execLoad c inst = DResult.ok c1) : c1.cycle_count = c.cycle_count := by
  unfold execLoad at h
  repeat' split at h
  all_goals (cases h <;> rfl)

/-- The Store arm leaves the cycle counter alone. -/
lemma execStore_cycle (c : Core) (inst : Nat) (c1 : Core)
    (h : execStore c inst = DResult.ok c1) : c1.cycle_count = c.cycle_count := by
  unfold execStore at h
  repeat' split at h
  all_goals (cases h <;> rfl)

/-- The Branch arm leaves the cycle counter alone. -/
lemma execBranch_cycle (c : Core) (inst : Nat) (c1 : Core)
    (h : execBranch c inst = DResult.ok c1) : c1.cycle_count = c.cycle_count := by
  unfold execBranch at h
  repeat' split at h
  all_goals (cases h <;> rfl)

/-- The Jalr arm leaves the cycle counter alone. -/
lemma execJalr_cycle (c : Core) (inst : Nat) (c1 : Core)
    (h : execJalr c inst = DResult.ok c1) : c1.cycle_count = c.cycle_count := by
  unfold execJalr at h
  cases h <;> rfl

/-- The Jal arm leaves the cycle counter alone. -/
lemma execJal_cycle (c : Core) (inst : Nat) (c1 : Core)
    (h : execJal c inst = DResult.ok c1) : c1.cycle_count = c.cycle_count := by
  unfold execJal at h
  cases h <;> rfl

/-- The MiscMem arm leaves the cycle counter alone. -/
lemma execMiscMem_cycle (c : Core) (inst : Nat) (c1 : Core)
    (h : execMiscMem c inst = DResult.ok c1) : c1.cycle_count = c.cycle_count := by
  unfold execMiscMem at h
  cases h <;> rfl

/-- The OpImm arm leaves the cycle counter alone. -/
lemma execOpImm_cycle (c : Core) (inst : Nat) (c1 : Core)
    (h : execOpImm c inst = DResult.ok c1) : c1.cycle_count = c.cycle_count := by
  unfold execOpImm at h
  repeat' split at h
  all_goals (cases h <;> rfl)

/-- The Op arm leaves the cycle counter alone. -/
lemma execOp_cycle (c : Core) (inst : Nat) (c1 : Core)
    (h : execOp c inst = DResult.ok c1) : c1.cycle_count = c.cycle_count := by
  unfold execOp at h
  repeat' split at h
  all_goals (cases h <;> rfl)

/-- The System arm leaves the cycle counter alone. -/
lemma execSystem_cycle (c : Core) (inst : Nat) (c1 : Core)
    (h : execSystem c inst = DResult.ok c1) : c1.cycle_count = c.cycle_count := by
  unfold execSystem at h
  repeat' split at h
  all_goals (cases h <;> rfl)

/-- The Auipc arm leaves the cycle counter alone. -/
lemma execAuipc_cycle (c : Core) (inst : Nat) (c1 : Core)
    (h : execAuipc c inst = DResult.ok c1) : c1.cycle_count = c.cycle_count := by
  unfold execAuipc at h
  cases h <;> rfl

/-- The Lui arm leaves the cycle counter alone. -/
lemma execLui_cycle (c : Core) (inst : Nat) (c1 : Core)
    (h : execLui c inst = DResult.ok c1) : c1.cycle_count = c.cycle_count := by
  unfold execLui at h
  cases h <;> rfl

/-- The Amo arm leaves the cycle counter alone. -/
lemma execAmo_cycle (c : Core) (inst : Nat) (c1 : Core)
    (h : execAmo c inst = DResult.ok c1) : c1.cycle_count = c.cycle_count := by
  unfold execAmo at h
  repeat' split at h
  all_goals (cases h <;> rfl)

/-- No dispatch arm touches the cycle counter. -/
lemma exec_cycle (c : Core) (inst : Nat) (c1 : Core)
    (h : Core.exec c inst = DResult.ok c1) : c1.cycle_count = c.cycle_count := by
  unfold Core.exec at h
  split at h
  · cases h
  · exact execLoad_cycle c inst c1 h
  · exact execStore_cycle c inst c1 h
  · exact execBranch_cycle c inst c1 h
  · exact execJalr_cycle c inst c1 h
  · exact execJal_cycle c inst c1 h
  · exact execMiscMem_cycle c inst c1 h
  · exact execOpImm_cycle c inst c1 h
  · exact execOp_cycle c inst c1 h
  · exact execSystem_cycle c inst c1 h
  · exact execAuipc_cycle c inst c1 h
  · exact execLui_cycle c inst c1 h
  · exact execAmo_cycle c inst c1 h

/-- A retired step forces reg 0 to 0 and bumps the cycle counter by
exactly one. -/
lemma step_retired_shape (c c1 : Core) (h : Core.step c = StepResult.retired c1) :
    c1.reg 0 = 0 ∧ c1.cycle_count = c.cycle_count + 1 := by
  unfold Core.step at h
  split at h
  · cases h
  · rename_i inst hfetch
    split at h
    · rename_i c0 hexec
      injection h with h2
      subst h2
      refine ⟨by simp [retire, updFn], ?_⟩
      simpa [retire] using exec_cycle c inst c0 hexec
    · cases h
    · cases h
    · cases h

/-- A stalled step returns the state unchanged. -/
lemma step_stalled_shape (c c1 : Core) (h : Core.step c = StepResult.stalled c1) :
    c1 = c := by
  unfold Core.step at h
  split at h
  · cases h
  · split at h <;> cases h
    rfl

/-- A halted (EBREAK) step returns the state unchanged: the dump and
process exit happen before the retirement lines run. -/
lemma step_halted_shape (c c1 : Core) (h : Core.step c = StepResult.halted c1) :
    c1 = c := by
  unfold Core.step at h
  split at h
  · cases h
  · split at h <;> cases h
    rfl

/-! ## Decode and arithmetic helper lemmas -/

/-- Unfolding one step once the fetched word is known. -/
lemma step_eq_some (c : Core) (inst : Nat)
    (hfetch : Mem.lw c.mem c.pc = some inst) :
    Core.step c = (match Core.exec c inst with
      | DResult.ok c1 => StepResult.retired (retire c1)
      | DResult.stall => StepResult.stalled c
      | DResult.halt => StepResult.halted c
      | DResult.panic => StepResult.fatal) := by
  unfold Core.step
  rw [hfetch]

lemma decode_load (inst : Nat) (h : (inst &&& 0b1111100) >>> 2 = 0b00000) :
    decodeOpcode inst = some Opcode.Load := by
  simp [decodeOpcode, h]

lemma decode_store (inst : Nat) (h : (inst &&& 0b1111100) >>> 2 = 0b01000) :
    decodeOpcode inst = some Opcode.Store := by
  simp [decodeOpcode, h]

lemma decode_branch (inst : Nat) (h : (inst &&& 0b1111100) >>> 2 = 0b11000) :
    decodeOpcode inst = some Opcode.Branch := by
  simp [decodeOpcode, h]

lemma decode_opimm (inst : Nat) (h : (inst &&& 0b1111100) >>> 2 = 0b00100) :
    decodeOpcode inst = some Opcode.OpImm := by
  simp [decodeOpcode, h]

lemma decode_op (inst : Nat) (h : (inst &&& 0b1111100) >>> 2 = 0b01100) :
    decodeOpcode inst = some Opcode.Op := by
  simp [decodeOpcode, h]

lemma decode_system (inst : Nat) (h : (inst &&& 0b1111100) >>> 2 = 0b11100) :
    decodeOpcode inst = some Opcode.System := by
  simp [decodeOpcode, h]

lemma decode_amo (inst : Nat) (h : (inst &&& 0b1111100) >>> 2 = 0b01011) :
    decodeOpcode inst = some Opcode.Amo := by
  simp [decodeOpcode, h]

/-- Appending disjoint low bits to shifted high bits adds them. -/
lemma lor_low_high (n a b : Nat) (ha : a < 2 ^ n) :
    a ||| b <<< n = 2 ^ n * b + a := by
  apply Nat.eq_of_testBit_eq
  intro i
  rw [Nat.testBit_lor, Nat.testBit_shiftLeft, Nat.testBit_mul_pow_two_add b ha]
  by_cases h : i < n
  · have h2 : ¬ (i ≥ n) := by omega
    simp [h, h2]
  · have h2 : (i ≥ n) := by omega
    have h3 : a.testBit i = false :=
      Nat.testBit_lt_two_pow
        (lt_of_lt_of_le ha (Nat.pow_le_pow_right (by norm_num) (by omega)))
    simp [h, h2, h3]

/-- For a 32-bit value, testing bit 31 by mask is testing 2^31 ≤ x. -/
lemma and_bit31_iff (x : Nat) (hx : x < 4294967296) :
    (x &&& 0x80000000 ≠ 0) ↔ 2147483648 ≤ x := by
  have h31 : x &&& 2147483648 = (x.testBit 31).toNat * 2147483648 := by
    have h := Nat.and_two_pow x 31
    norm_num at h
    exact h
  rw [Nat.testBit_to_div_mod] at h31
  by_cases hd : x / 2147483648 % 2 = 1
  · simp only [hd] at h31
    norm_num at h31
    rw [h31]
    constructor
    · intro _
      omega
    · intro _
      norm_num
  · simp only [hd] at h31
    norm_num at h31
    rw [h31]
    constructor
    · intro hc
      exact absurd rfl hc
    · intro hc
      omega

/-- The OpImm ALU table is total on the 3-bit funct3. -/
lemma opImmVal_eq_some (rs1 imm f3 : Nat) (h : f3 < 8) :
    ∃ v, opImmVal rs1 imm f3 = some v := by
  interval_cases f3 <;> simp [opImmVal]

/-- The Op ALU table is total on the 3-bit funct3. -/
lemma opVal_eq_some (rs1 rs2 f3 f7 : Nat) (h : f3 < 8) :
    ∃ v, opVal rs1 rs2 f3 f7 = some v := by
  interval_cases f3 <;> simp [opVal]

/-! ## Concrete states used by witnesses -/

/-- A little program: ADDI x1, x0, 5 at the base address, then EBREAK
(bytes of 0x00500093 and 0x00100073, little-endian). -/
def demoMem : Nat → Nat := fun i =>
  if i = 0 then 0x93 else if i = 2 then 0x50 else
  if i = 4 then 0x73 else if i = 6 then 0x10 else 0

/-- A freshly constructed core holding demoMem. -/
def demoCore : Core :=
  { mem := demoMem, csrs := fun _ => 0, reg := fun _ => 0,
    pc := 0x80000000, cycle_count := 0 }

/-- The state after the ADDI of demoCore retires. -/
def demoCore1 : Core := coreOf (Core.step demoCore) demoCore

/-- A program whose first word is a Load with the unrecognized
funct3 = 3 (word 0x00003003). -/
def stallCore : Core :=
  { mem := fun i => if i = 0 then 0x03 else if i = 1 then 0x30 else 0,
    csrs := fun _ => 0, reg := fun _ => 0,
    pc := 0x80000000, cycle_count := 0 }

/-! ## Claims -/

/-- C2: a step that decodes to Load, Store or Branch but carries an
unrecognized funct3 (3, 6 or 7 for Load; above 2 for Store; 2 or 3 for
Branch) aborts with no state change at all: the result is the stalled
outcome carrying the exact pre-step state, so pc, cycle_count, all
registers, all CSRs and all memory bytes are unchanged. -/
theorem C2_soft_fault_stalls (c : Core) (inst : Nat)
    (hfetch : Mem.lw c.mem c.pc = some inst)
    (h : ((inst &&& 0b1111100) >>> 2 = 0b00000 ∧
            ((inst >>> 12) &&& 0b111 = 3 ∨ (inst >>> 12) &&& 0b111 = 6 ∨
             (inst >>> 12) &&& 0b111 = 7)) ∨
         ((inst &&& 0b1111100) >>> 2 = 0b01000 ∧ 2 < (inst >>> 12) &&& 0b111) ∨
         ((inst &&& 0b1111100) >>> 2 = 0b11000 ∧
            ((inst >>> 12) &&& 0b111 = 2 ∨ (inst >>> 12) &&& 0b111 = 3))) :
    Core.step c = StepResult.stalled c := by
  rw [step_eq_some c inst hfetch]
  rcases h with ⟨hop, hf3⟩ | ⟨hop, hf3⟩ | ⟨hop, hf3⟩
  · have hexec : Core.exec c inst = execLoad c inst := by
      unfold Core.exec
      rw [decode_load inst hop]
    rw [hexec]
    rcases hf3 with h3 | h3 | h3 <;> simp [execLoad, h3]
  · have hexec : Core.exec c inst = execStore c inst := by
      unfold Core.exec
      rw [decode_store inst hop]
    rw [hexec]
    have h0 : ¬ ((inst >>> 12) &&& 0b111 = 0) := by omega
    have h1 : ¬ ((inst >>> 12) &&& 0b111 = 1) := by omega
    have h2 : ¬ ((inst >>> 12) &&& 0b111 = 2) := by omega
    simp [execStore, h0, h1, h2]
  · have hexec : Core.exec c inst = execBranch c inst := by
      unfold Core.exec
      rw [decode_branch inst hop]
    rw [hexec]
    rcases hf3 with h3 | h3 <;> simp [execBranch, h3]

/-- Witness for C2 at a concrete core whose fetched word is a Load
with funct3 = 3. -/
theorem C2_witness : Core.step stallCore = StepResult.stalled stallCore :=
  C2_soft_fault_stalls stallCore 0x3003 (by decide)
    (Or.inl ⟨by decide, Or.inl (by decide)⟩)

/-- C3: from a state with reg 0 = 0, any step outcome that carries a
state (retirement, stall or halt) again has reg 0 = 0 — for a retired
step this is re-established unconditionally at retirement whatever rd
the instruction encoded — and the two operand reads of the step
observe 0 whenever their 5-bit index field is 0. -/
theorem C3_x0_invariant (c c1 : Core) (h0 : c.reg 0 = 0)
    (h : Core.step c = StepResult.retired c1 ∨
         Core.step c = StepResult.stalled c1 ∨
         Core.step c = StepResult.halted c1) :
    c1.reg 0 = 0 ∧
    (∀ inst, Mem.lw c.mem c.pc = some inst →
      ((inst >>> 15) &&& 0b11111 = 0 → c.reg ((inst >>> 15) &&& 0b11111) = 0) ∧
      ((inst >>> 20) &&& 0b11111 = 0 → c.reg ((inst >>> 20) &&& 0b11111) = 0)) := by
  refine ⟨?_, fun inst _ => ⟨fun hz => by rw [hz]; exact h0,
                             fun hz => by rw [hz]; exact h0⟩⟩
  rcases h with h | h | h
  · exact (step_retired_shape c c1 h).1
  · rw [step_stalled_shape c c1 h]
    exact h0
  · rw [step_halted_shape c c1 h]
    exact h0

/-- Witness for C3 at the concrete demo core (its step retires). -/
theorem C3_witness :
    demoCore1.reg 0 = 0 ∧
    (∀ inst, Mem.lw demoCore.mem demoCore.pc = some inst →
      ((inst >>> 15) &&& 0b11111 = 0 →
        demoCore.reg ((inst >>> 15) &&& 0b11111) = 0) ∧
      ((inst >>> 20) &&& 0b11111 = 0 →
        demoCore.reg ((inst >>> 20) &&& 0b11111) = 0)) :=
  C3_x0_invariant demoCore demoCore1 rfl (Or.inl rfl)

/-- C9: for OpImm and Op instructions the funct3 dispatch is total:
whatever the 3-bit funct3 field holds, the step retires (it neither
stalls nor reaches the unreachable fallback and panics). -/
theorem C9_alu_dispatch_total (c : Core) (inst : Nat)
    (hfetch : Mem.lw c.mem c.pc = some inst)
    (hop : (inst &&& 0b1111100) >>> 2 = 0b00100 ∨
           (inst &&& 0b1111100) >>> 2 = 0b01100) :
    afterRetire (Core.step c) (fun _ => True) := by
  rw [step_eq_some c inst hfetch]
  have h8 : (inst >>> 12) &&& 0b111 < 8 := Nat.lt_succ_of_le Nat.and_le_right
  rcases hop with hop | hop
  · have hexec : Core.exec c inst = execOpImm c inst := by
      unfold Core.exec
      rw [decode_opimm inst hop]
    rw [hexec]
    obtain ⟨v, hv⟩ := opImmVal_eq_some (c.reg ((inst >>> 15) &&& 0b11111))
      (read_imm_i inst) ((inst >>> 12) &&& 0b111) h8
    unfold execOpImm
    rw [hv]
    exact trivial
  · have hexec : Core.exec c inst = execOp c inst := by
      unfold Core.exec
      rw [decode_op inst hop]
    rw [hexec]
    obtain ⟨v, hv⟩ := opVal_eq_some (c.reg ((inst >>> 15) &&& 0b11111))
      (c.reg ((inst >>> 20) &&& 0b11111)) ((inst >>> 12) &&& 0b111)
      ((inst >>> 25) &&& 0b1111111) h8
    unfold execOp
    rw [hv]
    exact trivial

/-- Witness for C9 at the concrete demo core (an ADDI). -/
theorem C9_witness : afterRetire (Core.step demoCore) (fun _ => True) :=
  C9_alu_dispatch_total demoCore 0x00500093 (by decide) (Or.inl (by decide))

/-- N successive retiring steps from a state to a state. -/
inductive RetiredN : Core → Nat → Core → Prop where
  | zero (c : Core) : RetiredN c 0 c
  | succ (c c2 c3 : Core) (n : Nat) :
      Core.step c = StepResult.retired c2 → RetiredN c2 n c3 →
      RetiredN c (n + 1) c3

/-- N retiring steps add exactly N to the cycle counter. -/
lemma retiredN_cycle (c : Core) (n : Nat) (c1 : Core) (h : RetiredN c n c1) :
    c1.cycle_count = c.cycle_count + n := by
  induction h with
  | zero c => rfl
  | succ c c2 c3 n hstep _ ih =>
    have h2 := (step_retired_shape c c2 hstep).2
    omega

/-- C8: the cycle counter goes up by exactly 1 on a retiring step, is
untouched by a stalling step, and after exactly N retiring steps from
a state whose counter is 0 (a reset state), a step that halts on
EBREAK reports a cycle count of exactly N (the halt dump happens
before the increment of its own step). -/
theorem C8_cycle_counter :
    (∀ c c1 : Core, Core.step c = StepResult.retired c1 →
        c1.cycle_count = c.cycle_count + 1) ∧
    (∀ c c1 : Core, Core.step c = StepResult.stalled c1 →
        c1.cycle_count = c.cycle_count) ∧
    (∀ (c : Core) (n : Nat) (c1 ch : Core), c.cycle_count = 0 →
        RetiredN c n c1 → Core.step c1 = StepResult.halted ch →
        ch.cycle_count = n) := by
  refine ⟨fun c c1 h => (step_retired_shape c c1 h).2,
          fun c c1 h => by rw [step_stalled_shape c c1 h],
          fun c n c1 ch h0 hn hh => ?_⟩
  rw [step_halted_shape c1 ch hh]
  rw [retiredN_cycle c n c1 hn, h0]
  omega

/-- Witness for C8: on the demo program (one ADDI, then EBREAK), one
retiring step from cycle 0 then the EBREAK halt reports count 1. -/
theorem C8_witness : demoCore1.cycle_count = 1 :=
  C8_cycle_counter.2.2 demoCore 1 demoCore1 demoCore1 rfl
    (RetiredN.succ demoCore demoCore1 demoCore1 0 rfl (RetiredN.zero demoCore1))
    rfl

/-- The I-immediate as the spec states it, written against the raw
12-bit field (instruction bits [31:20]): sign-extend the field, i.e.
keep values below 2^11 and add 2^32 - 2^12 to the rest (two's
complement).  Stated from the spec to compare with read_imm_i. -/
def signExtend12 (f : Nat) : Nat := if f < 2048 then f else f + 4294963200

/-- On 32-bit instruction words, the source's arithmetic-shift
reconstruction of the I-immediate agrees with the spec's sign-extension
of bits [31:20]. -/
lemma read_imm_i_eq_signExtend12 (inst : Nat) (h : inst < 4294967296) :
    read_imm_i inst = signExtend12 (inst >>> 20) := by
  unfold read_imm_i signExtend12
  have hs : inst >>> 20 = inst / 1048576 := by
    rw [Nat.shiftRight_eq_div_pow]
  by_cases hb : inst &&& 0x80000000 ≠ 0
  · rw [if_pos hb]
    have hge : 2147483648 ≤ inst := (and_bit31_iff inst h).mp hb
    have hlt : ¬ (inst >>> 20 < 2048) := by
      rw [hs]
      omega
    rw [if_neg hlt]
    have hf : inst >>> 20 < 4096 := by
      rw [hs]
      omega
    have h0 : (4294963200 : Nat) = 1048575 <<< 12 := by
      rw [Nat.shiftLeft_eq]
    rw [h0, lor_low_high 12 _ 1048575 hf]
    rw [Nat.shiftLeft_eq]
    norm_num
    omega
  · rw [if_neg hb]
    have hge : ¬ 2147483648 ≤ inst := fun hc => hb ((and_bit31_iff inst h).mpr hc)
    have hlt : inst >>> 20 < 2048 := by
      rw [hs]
      omega
    rw [if_pos hlt]

/-- C6: an OpImm instruction with funct3 = 0 (ADDI) retires in one
step with rd = rs1 + sign-extended 12-bit immediate in 32-bit wrapping
arithmetic (stated for a destination other than x0), pc advanced by
exactly 4, cycle_count incremented by 1, and register 0 still 0 even
when the rd field encodes index 0 (the write is then discarded). -/
theorem C6_addi (c : Core) (inst : Nat) (hinst : inst < 4294967296)
    (hfetch : Mem.lw c.mem c.pc = some inst)
    (hop : (inst &&& 0b1111100) >>> 2 = 0b00100)
    (hf3 : (inst >>> 12) &&& 0b111 = 0) :
    afterRetire (Core.step c) (fun c2 =>
      c2.pc = add32 c.pc 4 ∧
      c2.cycle_count = c.cycle_count + 1 ∧
      c2.reg 0 = 0 ∧
      ((inst >>> 7) &&& 0b11111 ≠ 0 →
        c2.reg ((inst >>> 7) &&& 0b11111) =
          (c.reg ((inst >>> 15) &&& 0b11111) + signExtend12 (inst >>> 20)) %
            4294967296)) := by
  rw [step_eq_some c inst hfetch]
  have hexec : Core.exec c inst = execOpImm c inst := by
    unfold Core.exec
    rw [decode_opimm inst hop]
  rw [hexec]
  have hv : opImmVal (c.reg ((inst >>> 15) &&& 0b11111)) (read_imm_i inst)
      ((inst >>> 12) &&& 0b111) =
      some (add32 (c.reg ((inst >>> 15) &&& 0b11111)) (read_imm_i inst)) := by
    rw [hf3]
    simp [opImmVal]
  unfold execOpImm
  rw [hv]
  refine ⟨rfl, rfl, by simp [retire, updFn], fun hrd => ?_⟩
  have hupd : (retire { c with
      reg := updFn c.reg ((inst >>> 7) &&& 0b11111)
        (add32 (c.reg ((inst >>> 15) &&& 0b11111)) (read_imm_i inst)),
      pc := add32 c.pc 4 }).reg ((inst >>> 7) &&& 0b11111) =
      add32 (c.reg ((inst >>> 15) &&& 0b11111)) (read_imm_i inst) := by
    simp [retire, updFn, hrd]
  rw [hupd, add32, read_imm_i_eq_signExtend12 inst hinst]

/-- Witness for C6 at the demo core (ADDI x1, x0, 5). -/
theorem C6_witness :
    afterRetire (Core.step demoCore) (fun c2 =>
      c2.pc = add32 demoCore.pc 4 ∧
      c2.cycle_count = demoCore.cycle_count + 1 ∧
      c2.reg 0 = 0 ∧
      ((0x00500093 >>> 7) &&& 0b11111 ≠ 0 →
        c2.reg ((0x00500093 >>> 7) &&& 0b11111) =
          (demoCore.reg ((0x00500093 >>> 15) &&& 0b11111) +
            signExtend12 (0x00500093 >>> 20)) % 4294967296)) :=
  C6_addi demoCore 0x00500093 (by decide) (by decide) (by decide) (by decide)
/-- C4: each of the six CSR forms (System opcode, funct3 in
{1,2,3,5,6,7}) retires, first capturing the addressed CSR's old value:
rd (when not x0) receives that old value, and the CSR is updated to
the operand for RW (funct3 1/5), old OR operand for RS (funct3 2/6),
old AND NOT operand for RC (funct3 3/7), where the operand is the rs1
register value for funct3 1/2/3 and the raw 5-bit rs1 index field for
funct3 5/6/7. -/
theorem C4_csr (c : Core) (inst : Nat)
    (hfetch : Mem.lw c.mem c.pc = some inst)
    (hop : (inst &&& 0b1111100) >>> 2 = 0b11100)
    (hf3 : (inst >>> 12) &&& 0b111 = 1 ∨ (inst >>> 12) &&& 0b111 = 2 ∨
           (inst >>> 12) &&& 0b111 = 3 ∨ (inst >>> 12) &&& 0b111 = 5 ∨
           (inst >>> 12) &&& 0b111 = 6 ∨ (inst >>> 12) &&& 0b111 = 7) :
    afterRetire (Core.step c) (fun c2 =>
      ((inst >>> 7) &&& 0b11111 ≠ 0 →
        c2.reg ((inst >>> 7) &&& 0b11111) = c.csrs (inst >>> 20)) ∧
      c2.reg 0 = 0 ∧
      c2.csrs (inst >>> 20) =
        (if (inst >>> 12) &&& 0b111 = 1 then c.reg ((inst >>> 15) &&& 0b11111)
         else if (inst >>> 12) &&& 0b111 = 2 then
           c.csrs (inst >>> 20) ||| c.reg ((inst >>> 15) &&& 0b11111)
         else if (inst >>> 12) &&& 0b111 = 3 then
           c.csrs (inst >>> 20) &&& (c.reg ((inst >>> 15) &&& 0b11111) ^^^ 0xFFFFFFFF)
         else if (inst >>> 12) &&& 0b111 = 5 then (inst >>> 15) &&& 0b11111
         else if (inst >>> 12) &&& 0b111 = 6 then
           c.csrs (inst >>> 20) ||| ((inst >>> 15) &&& 0b11111)
         else
           c.csrs (inst >>> 20) &&& (((inst >>> 15) &&& 0b11111) ^^^ 0xFFFFFFFF))) := by
  rw [step_eq_some c inst hfetch]
  have hexec : Core.exec c inst = execSystem c inst := by
    unfold Core.exec
    rw [decode_system inst hop]
  rw [hexec]
  rcases hf3 with h3 | h3 | h3 | h3 | h3 | h3 <;>
    simp only [execSystem, h3] <;>
    norm_num <;>
    exact ⟨fun hrd => by simp [retire, updFn, hrd], by simp [retire, updFn],
           by simp [retire, updFn]⟩

/-- A CSR demo program: CSRRW x5, 0x10, x6 then CSRRS x5, 0x10, x7
(words 0x010312F3 and 0x0103A2F3), with x6 = 0x42 and x7 = 1. -/
def csrCore : Core :=
  { mem := fun i =>
      if i = 0 then 0xF3 else if i = 1 then 0x12 else
      if i = 2 then 0x03 else if i = 3 then 0x01 else
      if i = 4 then 0xF3 else if i = 5 then 0xA2 else
      if i = 6 then 0x03 else if i = 7 then 0x01 else 0,
    csrs := fun _ => 0,
    reg := fun i => if i = 6 then 0x42 else if i = 7 then 1 else 0,
    pc := 0x80000000, cycle_count := 0 }

/-- The state after the CSRRW of csrCore retires. -/
def csrCore1 : Core := coreOf (Core.step csrCore) csrCore

/-- The state after the CSRRS of csrCore1 retires. -/
def csrCore2 : Core := coreOf (Core.step csrCore1) csrCore1

/-- Witness for C4, reproducing the spec's concrete scenario: CSRRW of
0x42 into a zero CSR leaves rd = 0 and CSR = 0x42; the following CSRRS
of 1 leaves rd = 0x42 and CSR = 0x43. -/
theorem C4_witness :
    csrCore1.reg 5 = 0 ∧ csrCore1.csrs 16 = 0x42 ∧
    csrCore2.reg 5 = 0x42 ∧ csrCore2.csrs 16 = 0x43 ∧
    afterRetire (Core.step csrCore) (fun c2 =>
      ((5 : Nat) ≠ 0 → c2.reg 5 = csrCore.csrs 16) ∧ c2.reg 0 = 0 ∧
      c2.csrs 16 = csrCore.reg 6) ∧
    afterRetire (Core.step csrCore1) (fun c2 =>
      ((5 : Nat) ≠ 0 → c2.reg 5 = csrCore1.csrs 16) ∧ c2.reg 0 = 0 ∧
      c2.csrs 16 = (csrCore1.csrs 16 ||| csrCore1.reg 7)) :=
  ⟨by decide, by decide, by decide, by decide,
   C4_csr csrCore 0x010312F3 (by decide) (by decide) (Or.inl (by decide)),
   C4_csr csrCore1 0x0103A2F3 (by decide) (by decide)
     (Or.inr (Or.inl (by decide)))⟩

/-- Writing the value a slot already holds changes nothing. -/
lemma updFn_self (f : Nat → Nat) (i v : Nat) (h : f i = v) : updFn f i v = f := by
  funext j
  unfold updFn
  by_cases hj : j = i
  · rw [if_pos hj, hj, h]
  · rw [if_neg hj]

/-- A retiring Store arm writes no register and no CSR. -/
lemma execStore_frame (c : Core) (inst : Nat) (c1 : Core)
    (h : execStore c inst = DResult.ok c1) :
    c1.reg = c.reg ∧ c1.csrs = c.csrs := by
  unfold execStore at h
  repeat' split at h
  all_goals (cases h <;> exact ⟨rfl, rfl⟩)

/-- A retiring Branch arm writes no register, no CSR and no memory. -/
lemma execBranch_frame (c : Core) (inst : Nat) (c1 : Core)
    (h : execBranch c inst = DResult.ok c1) :
    c1.reg = c.reg ∧ c1.csrs = c.csrs ∧ c1.mem = c.mem := by
  unfold execBranch at h
  repeat' split at h
  all_goals (cases h <;> exact ⟨rfl, rfl, rfl⟩)

/-- C10: a step that decodes to Store or Branch with a recognized
funct3 and retires leaves every register (given the x0 invariant held
before) and every CSR slot exactly as they were; a Branch step also
leaves every memory byte unchanged. -/
theorem C10_store_branch_frame (c c3 : Core) (inst : Nat)
    (h0 : c.reg 0 = 0)
    (hfetch : Mem.lw c.mem c.pc = some inst)
    (h : ((inst &&& 0b1111100) >>> 2 = 0b01000 ∧
            ((inst >>> 12) &&& 0b111 = 0 ∨ (inst >>> 12) &&& 0b111 = 1 ∨
             (inst >>> 12) &&& 0b111 = 2)) ∨
         ((inst &&& 0b1111100) >>> 2 = 0b11000 ∧
            (inst >>> 12) &&& 0b111 ≠ 2 ∧ (inst >>> 12) &&& 0b111 ≠ 3))
    (hstep : Core.step c = StepResult.retired c3) :
    c3.reg = c.reg ∧ c3.csrs = c.csrs ∧
    ((inst &&& 0b1111100) >>> 2 = 0b11000 → c3.mem = c.mem) := by
  rw [step_eq_some c inst hfetch] at hstep
  rcases h with ⟨hop, _⟩ | ⟨hop, _⟩
  · have hexec : Core.exec c inst = execStore c inst := by
      unfold Core.exec
      rw [decode_store inst hop]
    rw [hexec] at hstep
    cases hx : execStore c inst <;> rw [hx] at hstep <;> cases hstep
    rename_i c1
    obtain ⟨hr, hc⟩ := execStore_frame c inst c1 hx
    refine ⟨?_, hc, fun h24 => by rw [hop] at h24; omega⟩
    show updFn c1.reg 0 0 = c.reg
    rw [hr]
    exact updFn_self c.reg 0 0 h0
  · have hexec : Core.exec c inst = execBranch c inst := by
      unfold Core.exec
      rw [decode_branch inst hop]
    rw [hexec] at hstep
    cases hx : execBranch c inst <;> rw [hx] at hstep <;> cases hstep
    rename_i c1
    obtain ⟨hr, hc, hm⟩ := execBranch_frame c inst c1 hx
    refine ⟨?_, hc, fun _ => hm⟩
    show updFn c1.reg 0 0 = c.reg
    rw [hr]
    exact updFn_self c.reg 0 0 h0

/-- A store demo: SW x2, 0(x1) (word 0x0020A023) with x1 pointing at
backed memory and x2 = 7. -/
def storeCore : Core :=
  { mem := fun i =>
      if i = 0 then 0x23 else if i = 1 then 0xA0 else
      if i = 2 then 0x20 else 0,
    csrs := fun _ => 0,
    reg := fun i => if i = 1 then 0x80000100 else if i = 2 then 7 else 0,
    pc := 0x80000000, cycle_count := 0 }

/-- The state after the SW of storeCore retires. -/
def storeCore1 : Core := coreOf (Core.step storeCore) storeCore

/-- Witness for C10 at the concrete SW program. -/
theorem C10_witness :
    storeCore1.reg = storeCore.reg ∧ storeCore1.csrs = storeCore.csrs ∧
    ((0x0020A023 &&& 0b1111100) >>> 2 = 0b11000 →
      storeCore1.mem = storeCore.mem) :=
  C10_store_branch_frame storeCore storeCore1 0x0020A023 rfl (by decide)
    (Or.inl ⟨by decide, Or.inr (Or.inr (by decide))⟩) rfl

/-! ## Unmapped memory (C5) -/

/-- A byte array with a nonzero byte at physical offset 0. -/
def edgeMem : Nat → Nat := fun i => if i = 0 then 0xAB else 0

/-- Counterexample to C5 as stated: address 0x7FFFFFFF has bit 31
clear, yet a halfword load from it returns 0xAB00 (its second byte
address 0x80000000 wraps into backed memory at offset 0), and a
halfword store there overwrites backed byte 0. -/
theorem C5_counterexample :
    ((0x7FFFFFFF : Nat) &&& 0x80000000 = 0) ∧
    Mem.lh edgeMem 0x7FFFFFFF = some 0xAB00 ∧
    some (0xAB00 : Nat) ≠ some (0 : Nat) ∧
    edgeMem 0 = 0xAB ∧
    (Mem.sh edgeMem 0x7FFFFFFF 0xFFFF).map (fun m => m 0) = some 0xFF := by
  decide

/-- C5 amended: a byte access at any bit-31-clear address reads 0 or
stores nothing; a halfword or word access does so provided every
constituent byte address (addr + 1 up to addr + 3, computed mod 2^32)
also has bit 31 clear — in particular all accesses at address 0. -/
theorem C5_unmapped (m : Nat → Nat) (addr v : Nat) :
    (addr &&& 0x80000000 = 0 →
      Mem.lb m addr = some 0 ∧ Mem.sb m addr v = some m) ∧
    (addr &&& 0x80000000 = 0 → add32 addr 1 &&& 0x80000000 = 0 →
      Mem.lh m addr = some 0 ∧ Mem.sh m addr v = some m) ∧
    (addr &&& 0x80000000 = 0 → add32 addr 1 &&& 0x80000000 = 0 →
      add32 addr 2 &&& 0x80000000 = 0 → add32 addr 3 &&& 0x80000000 = 0 →
      Mem.lw m addr = some 0 ∧ Mem.sw m addr v = some m) := by
  have hlb : ∀ a, a &&& 0x80000000 = 0 → Mem.lb m a = some 0 := by
    intro a ha
    unfold Mem.lb
    rw [if_neg (by omega)]
  have hsb : ∀ (m2 : Nat → Nat) a w, a &&& 0x80000000 = 0 →
      Mem.sb m2 a w = some m2 := by
    intro m2 a w ha
    unfold Mem.sb
    rw [if_neg (by omega)]
  refine ⟨fun h0 => ⟨hlb addr h0, hsb m addr v h0⟩,
          fun h0 h1 => ⟨?_, ?_⟩, fun h0 h1 h2 h3 => ⟨?_, ?_⟩⟩
  · unfold Mem.lh
    rw [hlb addr h0, hlb (add32 addr 1) h1]
    rfl
  · unfold Mem.sh
    rw [hsb m addr (v &&& 0xFF) h0]
    show Mem.sb m (add32 addr 1) ((v >>> 8) &&& 0xFF) = some m
    exact hsb m (add32 addr 1) ((v >>> 8) &&& 0xFF) h1
  · unfold Mem.lw
    rw [hlb addr h0, hlb (add32 addr 1) h1, hlb (add32 addr 2) h2,
        hlb (add32 addr 3) h3]
    rfl
  · unfold Mem.sw
    rw [hsb m addr (v &&& 0xFF) h0]
    show (match Mem.sb m (add32 addr 1) ((v >>> 8) &&& 0xFF) with
      | none => none
      | some m2 =>
        match Mem.sb m2 (add32 addr 2) ((v >>> 16) &&& 0xFF) with
        | none => none
        | some m3 => Mem.sb m3 (add32 addr 3) ((v >>> 24) &&& 0xFF)) = some m
    rw [hsb m (add32 addr 1) ((v >>> 8) &&& 0xFF) h1]
    show (match Mem.sb m (add32 addr 2) ((v >>> 16) &&& 0xFF) with
      | none => none
      | some m3 => Mem.sb m3 (add32 addr 3) ((v >>> 24) &&& 0xFF)) = some m
    rw [hsb m (add32 addr 2) ((v >>> 16) &&& 0xFF) h2]
    show Mem.sb m (add32 addr 3) ((v >>> 24) &&& 0xFF) = some m
    exact hsb m (add32 addr 3) ((v >>> 24) &&& 0xFF) h3

/-- Witness for C5 at the spec's concrete address 0. -/
theorem C5_witness :
    (Mem.lb edgeMem 0 = some 0 ∧ Mem.sb edgeMem 0 5 = some edgeMem) ∧
    (Mem.lh edgeMem 0 = some 0 ∧ Mem.sh edgeMem 0 5 = some edgeMem) ∧
    (Mem.lw edgeMem 0 = some 0 ∧ Mem.sw edgeMem 0 5 = some edgeMem) :=
  ⟨(C5_unmapped edgeMem 0 5).1 (by decide),
   (C5_unmapped edgeMem 0 5).2.1 (by decide) (by decide),
   (C5_unmapped edgeMem 0 5).2.2 (by decide) (by decide) (by decide)
     (by decide)⟩

/-! ## Amo rd semantics (C1) -/

/-- A byte address is accessible (it does not panic): either unmapped
(bit 31 clear) or its physical offset is inside the backing array. -/
def addrOk (a : Nat) : Prop :=
  a &&& 0x80000000 = 0 ∨ a &&& 0x7FFFFFFF < MEMORY_SIZE

/-- A successful byte load means the address is accessible. -/
lemma lb_addrOk (m : Nat → Nat) (a b : Nat) (h : Mem.lb m a = some b) :
    addrOk a := by
  unfold Mem.lb at h
  by_cases hb : a &&& 0x80000000 ≠ 0
  · rw [if_pos hb] at h
    by_cases hi : a &&& 0x7FFFFFFF < MEMORY_SIZE
    · exact Or.inr hi
    · rw [if_neg hi] at h
      cases h
  · exact Or.inl (not_ne_iff.mp hb)

/-- A successful word load means all four byte addresses are
accessible. -/
lemma lw_addrOk (m : Nat → Nat) (a v : Nat) (h : Mem.lw m a = some v) :
    addrOk a ∧ addrOk (add32 a 1) ∧ addrOk (add32 a 2) ∧ addrOk (add32 a 3) := by
  unfold Mem.lw at h
  split at h
  · rename_i b3 b2 b1 b0 h3 h2 h1 h0
    exact ⟨lb_addrOk m a b0 h0, lb_addrOk m (add32 a 1) b1 h1,
           lb_addrOk m (add32 a 2) b2 h2, lb_addrOk m (add32 a 3) b3 h3⟩
  · cases h

/-- A byte store to an accessible address succeeds. -/
lemma sb_some (m : Nat → Nat) (a w : Nat) (h : addrOk a) :
    ∃ m2, Mem.sb m a w = some m2 := by
  unfold Mem.sb
  by_cases hb : a &&& 0x80000000 ≠ 0
  · rw [if_pos hb]
    rcases h with h | h
    · exact absurd h hb
    · rw [if_pos h]
      exact ⟨_, rfl⟩
  · rw [if_neg hb]
    exact ⟨m, rfl⟩

/-- A word store to four accessible byte addresses succeeds. -/
lemma sw_some (m : Nat → Nat) (a v : Nat)
    (h : addrOk a ∧ addrOk (add32 a 1) ∧ addrOk (add32 a 2) ∧ addrOk (add32 a 3)) :
    ∃ m2, Mem.sw m a v = some m2 := by
  obtain ⟨h0, h1, h2, h3⟩ := h
  obtain ⟨m1, hm1⟩ := sb_some m a (v &&& 0xFF) h0
  obtain ⟨m2, hm2⟩ := sb_some m1 (add32 a 1) ((v >>> 8) &&& 0xFF) h1
  obtain ⟨m3, hm3⟩ := sb_some m2 (add32 a 2) ((v >>> 16) &&& 0xFF) h2
  obtain ⟨m4, hm4⟩ := sb_some m3 (add32 a 3) ((v >>> 24) &&& 0xFF) h3
  refine ⟨m4, ?_⟩
  unfold Mem.sw
  rw [hm1]
  show (match Mem.sb m1 (add32 a 1) ((v >>> 8) &&& 0xFF) with
    | none => none
    | some m2 =>
      match Mem.sb m2 (add32 a 2) ((v >>> 16) &&& 0xFF) with
      | none => none
      | some m3 => Mem.sb m3 (add32 a 3) ((v >>> 24) &&& 0xFF)) = some m4
  rw [hm2]
  show (match Mem.sb m2 (add32 a 2) ((v >>> 16) &&& 0xFF) with
    | none => none
    | some m3 => Mem.sb m3 (add32 a 3) ((v >>> 24) &&& 0xFF)) = some m4
  rw [hm3]
  exact hm4

/-- A program holding SC.W x3, x2, (x1) (word 0x1820A1AF) with x1
pointing at a backed word holding 5 and x2 = 7. -/
def scCore : Core :=
  { mem := fun i =>
      if i = 0 then 0xAF else if i = 1 then 0xA1 else
      if i = 2 then 0x20 else if i = 3 then 0x18 else
      if i = 0x100 then 5 else 0,
    csrs := fun _ => 0,
    reg := fun i => if i = 1 then 0x80000100 else if i = 2 then 7 else 0,
    pc := 0x80000000, cycle_count := 0 }

/-- Counterexample to C1 as stated: the store-conditional subtype
(funct7 >> 2 = 3) is a recognized Amo instruction, the word read from
memory before modification is 5, yet after the step rd holds 0, not 5
(the code always writes the success value 0). -/
theorem C1_counterexample :
    Mem.lw scCore.mem (scCore.reg ((0x1820A1AF >>> 15) &&& 0b11111)) = some 5 ∧
    ((0x1820A1AF &&& 0b1111100) >>> 2 = 0b01011) ∧
    ((0x1820A1AF >>> 12) &&& 0b111 = 2) ∧
    (((0x1820A1AF >>> 25) &&& 0b1111111) >>> 2 = 0b00011) ∧
    regOfRetired (Core.step scCore) 3 = some 0 ∧
    regOfRetired (Core.step scCore) 3 ≠ some 5 := by
  decide

/-- C1 amended: for a word-width Amo instruction whose addressed word
loads successfully, every recognized subtype EXCEPT store-conditional
(load-reserved, swap, add, xor, and, or, signed/unsigned min and max)
retires with rd = the value read from memory before modification;
the store-conditional subtype instead retires with rd = 0, the
always-success report, regardless of the value read. -/
theorem C1_amo_rd_amended (c : Core) (inst oldv : Nat)
    (hfetch : Mem.lw c.mem c.pc = some inst)
    (hop : (inst &&& 0b1111100) >>> 2 = 0b01011)
    (hf3 : (inst >>> 12) &&& 0b111 = 2)
    (hrd : (inst >>> 7) &&& 0b11111 ≠ 0)
    (hload : Mem.lw c.mem (c.reg ((inst >>> 15) &&& 0b11111)) = some oldv) :
    ((((inst >>> 25) &&& 0b1111111) >>> 2 = 0b00010 ∨
      ((inst >>> 25) &&& 0b1111111) >>> 2 = 0b00001 ∨
      ((inst >>> 25) &&& 0b1111111) >>> 2 = 0b00000 ∨
      ((inst >>> 25) &&& 0b1111111) >>> 2 = 0b00100 ∨
      ((inst >>> 25) &&& 0b1111111) >>> 2 = 0b01100 ∨
      ((inst >>> 25) &&& 0b1111111) >>> 2 = 0b01000 ∨
      ((inst >>> 25) &&& 0b1111111) >>> 2 = 0b10000 ∨
      ((inst >>> 25) &&& 0b1111111) >>> 2 = 0b10100 ∨
      ((inst >>> 25) &&& 0b1111111) >>> 2 = 0b11000 ∨
      ((inst >>> 25) &&& 0b1111111) >>> 2 = 0b11100) →
      afterRetire (Core.step c)
        (fun c2 => c2.reg ((inst >>> 7) &&& 0b11111) = oldv)) ∧
    (((inst >>> 25) &&& 0b1111111) >>> 2 = 0b00011 →
      afterRetire (Core.step c)
        (fun c2 => c2.reg ((inst >>> 7) &&& 0b11111) = 0)) := by
  have hparts := lw_addrOk c.mem (c.reg ((inst >>> 15) &&& 0b11111)) oldv hload
  have hexec : Core.exec c inst = execAmo c inst := by
    unfold Core.exec
    rw [decode_amo inst hop]
  constructor
  · intro hsub
    rw [step_eq_some c inst hfetch, hexec]
    rcases hsub with h | h | h | h | h | h | h | h | h | h
    · simp [execAmo, hf3, h, hload, afterRetire, retire, updFn, hrd]
    · obtain ⟨m2, hm2⟩ := sw_some c.mem (c.reg ((inst >>> 15) &&& 0b11111))
        (c.reg ((inst >>> 20) &&& 0b11111)) hparts
      simp [execAmo, hf3, h, hload, hm2, afterRetire, retire, updFn, hrd]
    · obtain ⟨m2, hm2⟩ := sw_some c.mem (c.reg ((inst >>> 15) &&& 0b11111))
        (add32 oldv (c.reg ((inst >>> 20) &&& 0b11111))) hparts
      simp [execAmo, amoArithVal, hf3, h, hload, hm2, afterRetire, retire,
        updFn, hrd]
    · obtain ⟨m2, hm2⟩ := sw_some c.mem (c.reg ((inst >>> 15) &&& 0b11111))
        (oldv ^^^ (c.reg ((inst >>> 20) &&& 0b11111))) hparts
      simp [execAmo, amoArithVal, hf3, h, hload, hm2, afterRetire, retire,
        updFn, hrd]
    · obtain ⟨m2, hm2⟩ := sw_some c.mem (c.reg ((inst >>> 15) &&& 0b11111))
        (oldv &&& (c.reg ((inst >>> 20) &&& 0b11111))) hparts
      simp [execAmo, amoArithVal, hf3, h, hload, hm2, afterRetire, retire,
        updFn, hrd]
    · obtain ⟨m2, hm2⟩ := sw_some c.mem (c.reg ((inst >>> 15) &&& 0b11111))
        (oldv ||| (c.reg ((inst >>> 20) &&& 0b11111))) hparts
      simp [execAmo, amoArithVal, hf3, h, hload, hm2, afterRetire, retire,
        updFn, hrd]
    · obtain ⟨m2, hm2⟩ := sw_some c.mem (c.reg ((inst >>> 15) &&& 0b11111))
        (toU32 (min (toSigned oldv) (toSigned (c.reg ((inst >>> 20) &&& 0b11111))))) hparts
      simp [execAmo, amoArithVal, hf3, h, hload, hm2, afterRetire, retire,
        updFn, hrd]
    · obtain ⟨m2, hm2⟩ := sw_some c.mem (c.reg ((inst >>> 15) &&& 0b11111))
        (toU32 (max (toSigned oldv) (toSigned (c.reg ((inst >>> 20) &&& 0b11111))))) hparts
      simp [execAmo, amoArithVal, hf3, h, hload, hm2, afterRetire, retire,
        updFn, hrd]
    · obtain ⟨m2, hm2⟩ := sw_some c.mem (c.reg ((inst >>> 15) &&& 0b11111))
        (min oldv (c.reg ((inst >>> 20) &&& 0b11111))) hparts
      simp [execAmo, amoArithVal, hf3, h, hload, hm2, afterRetire, retire,
        updFn, hrd]
    · obtain ⟨m2, hm2⟩ := sw_some c.mem (c.reg ((inst >>> 15) &&& 0b11111))
        (max oldv (c.reg ((inst >>> 20) &&& 0b11111))) hparts
      simp [execAmo, amoArithVal, hf3, h, hload, hm2, afterRetire, retire,
        updFn, hrd]
  · intro hsub
    obtain ⟨m2, hm2⟩ := sw_some c.mem (c.reg ((inst >>> 15) &&& 0b11111))
      (c.reg ((inst >>> 20) &&& 0b11111)) hparts
    rw [step_eq_some c inst hfetch, hexec]
    simp [execAmo, hf3, hsub, hm2, afterRetire, retire, updFn, hrd]

/-- A program holding AMOADD.W x3, x2, (x1) (word 0x0020A1AF) with x1
pointing at a backed word holding 5 and x2 = 3. -/
def amoCore : Core :=
  { mem := fun i =>
      if i = 0 then 0xAF else if i = 1 then 0xA1 else
      if i = 2 then 0x20 else if i = 3 then 0x00 else
      if i = 0x100 then 5 else 0,
    csrs := fun _ => 0,
    reg := fun i => if i = 1 then 0x80000100 else if i = 2 then 3 else 0,
    pc := 0x80000000, cycle_count := 0 }

/-- Witness for C1 at the spec's AMOADD example: memory holds 5,
operand is 3; rd receives the prior value 5 and memory becomes 8. -/
theorem C1_witness :
    afterRetire (Core.step amoCore) (fun c2 => c2.reg 3 = 5) ∧
    (coreOf (Core.step amoCore) amoCore).mem 0x100 = 8 :=
  ⟨(C1_amo_rd_amended amoCore 0x0020A1AF 5 (by decide) (by decide) (by decide)
      (by decide) (by decide)).1 (Or.inr (Or.inr (Or.inl (by decide)))),
   by decide⟩

/-! ## B-immediate round trip (C7) -/

/-- Check p on base, base+1, ..., base+n-1 (structural recursion so a
proof by evaluation stays shallow). -/
def checkRow (p : Nat → Bool) (base : Nat) : Nat → Bool
  | 0 => true
  | k + 1 => p (base + k) && checkRow p base k

/-- Check p on 0, 1, ..., rows*w - 1, row by row. -/
def checkGrid (p : Nat → Bool) (w : Nat) : Nat → Bool
  | 0 => true
  | r + 1 => checkRow p (r * w) w && checkGrid p w r

/-- Soundness of checkRow. -/
lemma checkRow_spec (p : Nat → Bool) (base n : Nat) (h : checkRow p base n = true) :
    ∀ k, k < n → p (base + k) = true := by
  induction n with
  | zero => intro k hk; omega
  | succ n ih =>
    intro k hk
    unfold checkRow at h
    rw [Bool.and_eq_true] at h
    by_cases hkn : k = n
    · subst hkn
      exact h.1
    · exact ih h.2 k (by omega)

/-- Soundness of checkGrid. -/
lemma checkGrid_spec (p : Nat → Bool) (w rows : Nat)
    (h : checkGrid p w rows = true) :
    ∀ r, r < rows → ∀ k, k < w → p (r * w + k) = true := by
  induction rows with
  | zero => intro r hr; omega
  | succ n ih =>
    intro r hr k hk
    unfold checkGrid at h
    rw [Bool.and_eq_true] at h
    by_cases hrn : r = n
    · subst hrn
      exact checkRow_spec p (r * w) w h.1 k hk
    · exact ih h.2 r (by omega) k hk

/-- The B-type packing law as the spec states it, for a 13-bit
two's-complement value v with low bit 0: value bit 12 goes to
instruction bit 31, value bit 11 to instruction bit 7, value bits
[10:5] to instruction bits [30:25], value bits [4:1] to instruction
bits [11:8].  Stated from the spec to compare with read_imm_b. -/
def encodeB (v : Nat) : Nat :=
  (((v >>> 12) &&& 1) <<< 31) ||| (((v >>> 5) &&& 0b111111) <<< 25) |||
    (((v >>> 1) &&& 0b1111) <<< 8) ||| (((v >>> 11) &&& 1) <<< 7)

/-- Sign extension of a 13-bit two's-complement value to 32 bits. -/
def sext13 (v : Nat) : Nat := if v &&& 0x1000 ≠ 0 then v ||| 0xFFFFE000 else v

/-- C7: for every even 13-bit two's-complement value, packing it by
the B-type bit-layout law and decoding with read_imm_b recovers the
value sign-extended to 32 bits. -/
theorem C7_b_roundtrip (v : Nat) (hv : v < 8192) (he : v % 2 = 0) :
    read_imm_b (encodeB v) = sext13 v := by
  have hc : checkGrid (fun k => read_imm_b (encodeB (2 * k)) == sext13 (2 * k))
      64 64 = true := by rfl
  have hp := checkGrid_spec _ 64 64 hc (v / 2 / 64) (by omega) (v / 2 % 64)
    (by omega)
  have hv2 : 2 * (v / 2 / 64 * 64 + v / 2 % 64) = v := by omega
  rw [hv2] at hp
  exact eq_of_beq hp

/-- Witness for C7 at the value 8190 (the 13-bit pattern of -2). -/
theorem C7_witness : read_imm_b (encodeB 8190) = sext13 8190 :=
  C7_b_roundtrip 8190 (by decide) (by decide)
